import Mathlib

/-!
# Verification of the crazy-stairs controller

A shallow embedding of the stair-installation controller:

* `main.py` — the control loop (sensor discovery, round-robin polling,
  eviction, trigger edges, LED effects) and the distance→color mapping;
* `vl53l0x_multiplexer.py` — the TCA9548A channel arbiter;
* `bluetooth_audio.py` — the Bluetooth audio connection/playback manager.

Python `float` arithmetic is modelled by exact rationals (`ℚ`); all the
constants involved (200.0, 2000.0, 609.6, …) and the concrete inputs used
below are exactly representable in binary floating point, so the modelled
values agree with the Python values at every point we evaluate.
-/

namespace CrazyStairs

/-- Python's `int(x)` conversion: truncation toward zero. -/
def pyInt (q : ℚ) : ℤ := if q < 0 then ⌈q⌉ else ⌊q⌋

/-! ## Distance → color mapping (`main.py`, lines 22-25 and 238-255) -/

/-- `MAX_DISTANCE = 2000.0` (mm). -/
def MAX_DISTANCE : ℚ := 2000

/-- `MIN_DISTANCE = 200.0` (mm). -/
def MIN_DISTANCE : ℚ := 200

/-- `TRIGGER_DISTANCE = 609.6` (24 inches in mm). -/
def TRIGGER_DISTANCE : ℚ := 6096 / 10

/-- `get_color_from_distance` (`main.py` 238-255).  `Color(r, g, b)` only
packs the three components, so we keep the triple `(red, green, blue)`.
Python's `int()` is truncation toward zero (`pyInt`). -/
def get_color_from_distance (distance : ℚ) : ℤ × ℤ × ℤ :=
  let d := max MIN_DISTANCE (min distance MAX_DISTANCE)
  let intensity : ℚ := 1 - (d - MIN_DISTANCE) / (MAX_DISTANCE - MIN_DISTANCE)
  let red := pyInt (255 * intensity)
  let blue := pyInt (255 * (1 - intensity))
  (red, 0, blue)

/-- Modelled from the spec's words (§4.4), for comparison with the code:
`red = round(255*intensity)`, `blue = round(255*(1-intensity))` with
*nearest-integer* rounding (ties upward), over the same clamp and
intensity formulas. -/
def roundNearest (q : ℚ) : ℤ := ⌊q + 1 / 2⌋

/-- The color mapping as the spec states it (nearest-integer rounding of
the red and blue terms); everything else as in the code. -/
def get_color_spec (distance : ℚ) : ℤ × ℤ × ℤ :=
  let d := max MIN_DISTANCE (min distance MAX_DISTANCE)
  let intensity : ℚ := 1 - (d - MIN_DISTANCE) / (MAX_DISTANCE - MIN_DISTANCE)
  (roundNearest (255 * intensity), 0, roundNearest (255 * (1 - intensity)))

lemma pyInt_of_nonneg {q : ℚ} (h : 0 ≤ q) : pyInt q = ⌊q⌋ := by
  unfold pyInt
  rw [if_neg (not_lt.mpr h)]

lemma pyInt_mono {q r : ℚ} (h : q ≤ r) : pyInt q ≤ pyInt r := by
  unfold pyInt
  rcases lt_or_le q 0 with hq | hq
  · rw [if_pos hq]
    rcases lt_or_le r 0 with hr | hr
    · rw [if_pos hr]
      exact Int.ceil_le_ceil h
    · rw [if_neg (not_lt.mpr hr)]
      calc ⌈q⌉ ≤ ⌈(0 : ℚ)⌉ := Int.ceil_le_ceil (le_of_lt hq)
        _ = 0 := by simp
        _ ≤ ⌊r⌋ := Int.le_floor.mpr (by exact_mod_cast hr)
  · rw [if_neg (not_lt.mpr hq), if_neg (not_lt.mpr (le_trans hq h))]
    exact Int.floor_le_floor h

/-- The clamped distance, as computed by the code. -/
lemma clamp_mono {d₁ d₂ : ℚ} (h : d₁ ≤ d₂) :
    max MIN_DISTANCE (min d₁ MAX_DISTANCE) ≤ max MIN_DISTANCE (min d₂ MAX_DISTANCE) :=
  max_le_max le_rfl (min_le_min h le_rfl)

lemma clamp_bounds (d : ℚ) :
    MIN_DISTANCE ≤ max MIN_DISTANCE (min d MAX_DISTANCE) ∧
      max MIN_DISTANCE (min d MAX_DISTANCE) ≤ MAX_DISTANCE := by
  constructor
  · exact le_max_left _ _
  · apply max_le
    · norm_num [MIN_DISTANCE, MAX_DISTANCE]
    · exact min_le_right _ _

lemma intensity_bounds (d : ℚ) :
    0 ≤ 1 - ((max MIN_DISTANCE (min d MAX_DISTANCE)) - MIN_DISTANCE) / (MAX_DISTANCE - MIN_DISTANCE) ∧
      1 - ((max MIN_DISTANCE (min d MAX_DISTANCE)) - MIN_DISTANCE) / (MAX_DISTANCE - MIN_DISTANCE) ≤ 1 := by
  obtain ⟨h₁, h₂⟩ := clamp_bounds d
  rw [MIN_DISTANCE, MAX_DISTANCE] at *
  constructor
  · rw [sub_nonneg, div_le_one (by norm_num)]
    linarith
  · have : 0 ≤ ((max (200 : ℚ) (min d 2000)) - 200) / (2000 - 200) := by
      apply div_nonneg <;> linarith
    linarith

lemma intensity_antitone {d₁ d₂ : ℚ} (h : d₁ ≤ d₂) :
    1 - ((max MIN_DISTANCE (min d₂ MAX_DISTANCE)) - MIN_DISTANCE) / (MAX_DISTANCE - MIN_DISTANCE) ≤
      1 - ((max MIN_DISTANCE (min d₁ MAX_DISTANCE)) - MIN_DISTANCE) / (MAX_DISTANCE - MIN_DISTANCE) := by
  have hc := clamp_mono h
  have hden : (0 : ℚ) < MAX_DISTANCE - MIN_DISTANCE := by norm_num [MIN_DISTANCE, MAX_DISTANCE]
  have hd := (div_le_div_iff_of_pos_right hden).mpr (sub_le_sub_right hc MIN_DISTANCE)
  linarith

/-- C3 counterexample: at distance 1100 mm the code truncates 127.5 down to
127 in both the red and the blue component, while the spec's
nearest-integer rounding yields 128; so the code does not implement the
spec's `round`. -/
theorem get_color_round_counterexample :
    get_color_from_distance 1100 = (127, 0, 127) ∧
      get_color_spec 1100 = (128, 0, 128) ∧
      get_color_from_distance 1100 ≠ get_color_spec 1100 := by
  refine ⟨?_, ?_, ?_⟩
  · norm_num [get_color_from_distance, pyInt, MIN_DISTANCE, MAX_DISTANCE]
  · norm_num [get_color_spec, roundNearest, MIN_DISTANCE, MAX_DISTANCE]
  · intro hcontra
    rw [show get_color_from_distance 1100 = (127, 0, 127) by
          norm_num [get_color_from_distance, pyInt, MIN_DISTANCE, MAX_DISTANCE],
        show get_color_spec 1100 = (128, 0, 128) by
          norm_num [get_color_spec, roundNearest, MIN_DISTANCE, MAX_DISTANCE]] at hcontra
    simp at hcontra

/-- C3 (amended): for every distance `d`, `get_color_from_distance d`
returns `(⌊255*intensity⌋, 0, ⌊255*(1-intensity)⌋)` with
`intensity = 1 - (clamp(d,MIN,MAX) - MIN)/(MAX - MIN)` — the red and blue
components are the *floor* (truncation toward zero, equal to floor on
these nonnegative terms) of 255 times their intensity terms, and green is
always 0. -/
theorem get_color_floor_formula (d : ℚ) :
    get_color_from_distance d =
      (⌊255 * (1 - ((max MIN_DISTANCE (min d MAX_DISTANCE)) - MIN_DISTANCE) /
            (MAX_DISTANCE - MIN_DISTANCE))⌋,
        0,
        ⌊255 * (((max MIN_DISTANCE (min d MAX_DISTANCE)) - MIN_DISTANCE) /
            (MAX_DISTANCE - MIN_DISTANCE))⌋) := by
  obtain ⟨h₀, h₁⟩ := intensity_bounds d
  have hred : (0 : ℚ) ≤ 255 * (1 - ((max MIN_DISTANCE (min d MAX_DISTANCE)) - MIN_DISTANCE) /
      (MAX_DISTANCE - MIN_DISTANCE)) := by positivity
  have hblue : (0 : ℚ) ≤ 255 * (1 - (1 - ((max MIN_DISTANCE (min d MAX_DISTANCE)) - MIN_DISTANCE) /
      (MAX_DISTANCE - MIN_DISTANCE))) := by nlinarith
  simp only [get_color_from_distance]
  rw [pyInt_of_nonneg hred, pyInt_of_nonneg hblue]
  norm_num

/-- C7: the distance→color mapping is monotonic and clamped: as distance
grows the red component is nonincreasing and the blue component is
nondecreasing, and the mapping is constant on either side of the clamp
range: `color 150 = color 200 = (255,0,0)` and
`color 2000 = color 2500 = (0,0,255)`. -/
theorem get_color_monotone_clamped :
    (∀ d₁ d₂ : ℚ, d₁ ≤ d₂ →
        (get_color_from_distance d₂).1 ≤ (get_color_from_distance d₁).1 ∧
          (get_color_from_distance d₁).2.2 ≤ (get_color_from_distance d₂).2.2) ∧
      get_color_from_distance 150 = get_color_from_distance 200 ∧
      get_color_from_distance 150 = (255, 0, 0) ∧
      get_color_from_distance 2000 = get_color_from_distance 2500 ∧
      get_color_from_distance 2000 = (0, 0, 255) := by
  refine ⟨?_, ?_, ?_, ?_, ?_⟩
  · intro d₁ d₂ h
    have hi := intensity_antitone h
    constructor
    · unfold get_color_from_distance
      exact pyInt_mono (by nlinarith)
    · unfold get_color_from_distance
      exact pyInt_mono (by nlinarith)
  · norm_num [get_color_from_distance, pyInt, MIN_DISTANCE, MAX_DISTANCE]
  · norm_num [get_color_from_distance, pyInt, MIN_DISTANCE, MAX_DISTANCE]
  · norm_num [get_color_from_distance, pyInt, MIN_DISTANCE, MAX_DISTANCE]
  · norm_num [get_color_from_distance, pyInt, MIN_DISTANCE, MAX_DISTANCE]

/-- Witness for `get_color_monotone_clamped`: the monotone part applied at
the concrete pair 300 ≤ 400. -/
theorem get_color_monotone_clamped_witness :
    (get_color_from_distance 400).1 ≤ (get_color_from_distance 300).1 ∧
      (get_color_from_distance 300).2.2 ≤ (get_color_from_distance 400).2.2 :=
  get_color_monotone_clamped.1 300 400 (by norm_num)

/-! ## The main control loop (`main.py`, `main`, lines 383-491)

The loop's mutable state consists of the ordered active-sensor list, the
round-robin index, the two tracking dictionaries (modelled as partial
maps `ℕ → Option _`; a `none` entry means the key is absent from the
dict), and the two timestamps.  Real-time values are modelled as exact
rationals. -/

/-- `SOUND_COOLDOWN = 2.0` (`main.py` line 159); defined by the program
but never referenced anywhere in the control loop. -/
def SOUND_COOLDOWN : ℚ := 2

/-- `update_interval = 0.01` (`main.py` line 404). -/
def update_interval : ℚ := 1 / 100

/-- `sensor_retry_interval = 5.0` (`main.py` line 405). -/
def sensor_retry_interval : ℚ := 5

/-- `STAIR_MAPPING` (`main.py` lines 30-48).  `.get(channel)` returns
`None` both for the explicit `None` entries (channels 2, 3) and for
absent keys. -/
def STAIR_MAPPING : ℕ → Option ℕ
  | 0 => some 9
  | 1 => some 10
  | 2 => none
  | 3 => none
  | 4 => some 11
  | 5 => some 12
  | 6 => some 13
  | 7 => some 14
  | 8 => some 1
  | 9 => some 2
  | 10 => some 3
  | 11 => some 4
  | 12 => some 5
  | 13 => some 6
  | 14 => some 7
  | 15 => some 8
  | _ => none

/-- Dictionary assignment `m[k] = v`. -/
def mapSet {α : Type} (m : ℕ → Option α) (k : ℕ) (v : α) : ℕ → Option α :=
  fun x => if x = k then some v else m x

/-- Dictionary removal `m.pop(k, None)`. -/
def mapPop {α : Type} (m : ℕ → Option α) (k : ℕ) : ℕ → Option α :=
  fun x => if x = k then none else m x

/-- The observable side effects a loop tick can request.  `play` is the
audio play request the spec's audio-dispatch rule describes; the code
under verification only ever emits the two LED fade effects. -/
inductive LoopAction : Type
  | fadeIn (stair_num : ℕ)
  | fadeOut (stair_num : ℕ)
  | play (sound_file : String)
  deriving DecidableEq, Repr

/-- `a` is an audio play request. -/
def LoopAction.isPlay : LoopAction → Bool
  | .play _ => true
  | _ => false

/-- The mutable state of `main`'s while-loop (`main.py` lines 401-412). -/
structure LoopState : Type where
  active_sensors : List ℕ
  current_sensor_idx : ℕ
  sensor_states : ℕ → Option Bool
  current_distances : ℕ → Option (Option ℚ)
  last_update : ℚ
  last_sensor_init : ℚ

/-- The state at loop entry (`main.py` lines 401-412): empty active set,
index 0, empty dicts, `last_update = time.time()` (the loop-entry time
`t₀`), `last_sensor_init = 0`. -/
def initialState (t₀ : ℚ) : LoopState :=
  { active_sensors := []
    current_sensor_idx := 0
    sensor_states := fun _ => none
    current_distances := fun _ => none
    last_update := t₀
    last_sensor_init := 0 }

/-- `is_triggered = distance < TRIGGER_DISTANCE` (`main.py` line 450). -/
def is_triggered_of (distance : ℚ) : Bool := distance < TRIGGER_DISTANCE

/-- One polling tick (`main.py` lines 439-476), taken when the active set
is non-empty and the update interval has elapsed.  `reading` is the value
of `multiplexer.read_range(channel)` and `strip_present` is
`strip is not None`.  The polled channel is `active_sensors[current_sensor_idx]`
(in-bounds in every reachable state, see `round_robin_index_in_bounds`;
`getD` supplies a default Lean needs but Python never uses).  Returns the
new state and the effects requested this tick. -/
def pollTick (s : LoopState) (current_time : ℚ) (reading : Option ℚ)
    (strip_present : Bool) : LoopState × List LoopAction :=
  let channel := s.active_sensors.getD s.current_sensor_idx 0
  -- line 445: current_distances[channel] = distance
  let distances := mapSet s.current_distances channel reading
  match reading with
  | some distance =>
    -- lines 447-464
    let was_triggered := (s.sensor_states channel).getD false
    let is_triggered := is_triggered_of distance
    -- the pair (new sensor_states dict, effect actions requested)
    let sa :=
      if is_triggered ≠ was_triggered then
        let states := mapSet s.sensor_states channel is_triggered
        match STAIR_MAPPING channel, strip_present with
        | some stair_num, true =>
          (states, [if is_triggered then LoopAction.fadeIn stair_num
                    else LoopAction.fadeOut stair_num])
        | _, _ => (states, [])
      else (s.sensor_states, [])
    ({ s with
        current_distances := distances
        sensor_states := sa.1
        current_sensor_idx := (s.current_sensor_idx + 1) % s.active_sensors.length
        last_update := current_time }, sa.2)
  | none =>
    -- lines 465-472: evict the channel
    let active := s.active_sensors.erase channel
    ({ s with
        active_sensors := active
        sensor_states := mapPop s.sensor_states channel
        current_distances := mapPop distances channel
        current_sensor_idx :=
          if 0 < active.length then s.current_sensor_idx % active.length
          else s.current_sensor_idx }, [])

/-- One discovery pass (`main.py` lines 421-436), taken when the active
set is empty and the retry interval has elapsed: try channels 0..15 in
order, appending each successfully initialized channel to the active list
and setting its trigger state to `False`.  `init_ok c` is the value of
`multiplexer.init_sensor(c)`. -/
def discoveryTick (s : LoopState) (current_time : ℚ) (init_ok : ℕ → Bool) : LoopState :=
  let p :=
    (List.range 16).foldl
      (fun (p : List ℕ × (ℕ → Option Bool)) channel =>
        if init_ok channel then (p.1 ++ [channel], mapSet p.2 channel false)
        else p)
      (s.active_sensors, s.sensor_states)
  { s with
      active_sensors := p.1
      sensor_states := p.2
      last_sensor_init := current_time }

/-- One iteration of the while-loop (`main.py` lines 417-484): either the
discovery branch fires (empty active set, retry interval elapsed), or the
polling branch fires (non-empty active set, update interval elapsed), or
neither guard holds and the iteration only sleeps. -/
inductive LoopStep : LoopState → LoopState → Prop
  | discover (s : LoopState) (t : ℚ) (init_ok : ℕ → Bool)
      (hempty : s.active_sensors.length = 0)
      (helapsed : sensor_retry_interval ≤ t - s.last_sensor_init) :
      LoopStep s (discoveryTick s t init_ok)
  | poll (s : LoopState) (t : ℚ) (reading : Option ℚ) (strip_present : Bool)
      (hne : 0 < s.active_sensors.length)
      (helapsed : update_interval ≤ t - s.last_update) :
      LoopStep s (pollTick s t reading strip_present).1
  | idle (s : LoopState) : LoopStep s s

/-! ## C9: the round-robin index stays in bounds -/

/-- Invariant tying the round-robin index to the active-set size: in
non-empty states the index is a valid position, and emptying the active
set forces the index to 0. -/
def IdxInv (s : LoopState) : Prop :=
  (0 < s.active_sensors.length → s.current_sensor_idx < s.active_sensors.length) ∧
    (s.active_sensors.length = 0 → s.current_sensor_idx = 0)

lemma idxInv_initial (t₀ : ℚ) : IdxInv (initialState t₀) := by
  constructor <;> intro h <;> simp [initialState] at h ⊢

lemma idxInv_discover {s : LoopState} (t : ℚ) (init_ok : ℕ → Bool)
    (hempty : s.active_sensors.length = 0) (hinv : IdxInv s) :
    IdxInv (discoveryTick s t init_ok) := by
  have hidx : s.current_sensor_idx = 0 := hinv.2 hempty
  constructor
  · intro h
    simpa [discoveryTick, hidx] using h
  · intro _
    simpa [discoveryTick] using hidx

lemma polled_channel_mem {s : LoopState} (h : s.current_sensor_idx < s.active_sensors.length) :
    s.active_sensors.getD s.current_sensor_idx 0 ∈ s.active_sensors := by
  rw [List.getD_eq_getElem s.active_sensors 0 h]
  exact List.getElem_mem h

lemma idxInv_poll {s : LoopState} (t : ℚ) (reading : Option ℚ) (strip_present : Bool)
    (hne : 0 < s.active_sensors.length) (hinv : IdxInv s) :
    IdxInv (pollTick s t reading strip_present).1 := by
  have hidx := hinv.1 hne
  match reading with
  | some d =>
    constructor
    · intro _
      simp only [pollTick]
      exact Nat.mod_lt _ hne
    · intro h
      simp only [pollTick] at h
      omega
  | none =>
    have hmem := polled_channel_mem hidx
    have hlen : (s.active_sensors.erase
        (s.active_sensors.getD s.current_sensor_idx 0)).length =
        s.active_sensors.length - 1 := by
      have := List.length_erase_add_one hmem
      omega
    constructor
    · intro h
      simp only [pollTick] at h ⊢
      rw [if_pos h]
      exact Nat.mod_lt _ h
    · intro h
      simp only [pollTick] at h ⊢
      rw [if_neg (by omega)]
      -- the erased list is empty, so the original had exactly one element
      have hone : s.active_sensors.length = 1 := by omega
      omega

lemma idxInv_step {s s' : LoopState} (hstep : LoopStep s s') (hinv : IdxInv s) : IdxInv s' := by
  cases hstep with
  | discover t init_ok hempty _ => exact idxInv_discover t init_ok hempty hinv
  | poll t reading strip_present hne _ => exact idxInv_poll t reading strip_present hne hinv
  | idle => exact hinv

lemma reachable_idxInv {t₀ : ℚ} {s : LoopState}
    (hreach : Relation.ReflTransGen LoopStep (initialState t₀) s) : IdxInv s := by
  induction hreach with
  | refl => exact idxInv_initial t₀
  | tail _ hstep ih => exact idxInv_step hstep ih

/-- C9: in every state reachable from loop entry, whenever the
active-sensor list is non-empty the round-robin index is a valid position
into it, so `active_sensors[current_sensor_idx]` is always in bounds. -/
theorem round_robin_index_in_bounds (t₀ : ℚ) (s : LoopState)
    (hreach : Relation.ReflTransGen LoopStep (initialState t₀) s)
    (hne : 0 < s.active_sensors.length) :
    s.current_sensor_idx < s.active_sensors.length :=
  (reachable_idxInv hreach).1 hne

/-- Witness for `round_robin_index_in_bounds`: the state reached by one
discovery pass (at time 5, every channel initializing successfully) from
loop entry at time 0 has 16 active sensors and index 0. -/
theorem round_robin_index_in_bounds_witness :
    (discoveryTick (initialState 0) 5 (fun _ => true)).current_sensor_idx <
      (discoveryTick (initialState 0) 5 (fun _ => true)).active_sensors.length :=
  round_robin_index_in_bounds 0 _
    (Relation.ReflTransGen.single
      (LoopStep.discover (initialState 0) 5 (fun _ => true) (by simp [initialState])
        (by norm_num [sensor_retry_interval, initialState])))
    (by decide)

/-! ## C6: triggered iff strictly below threshold; C2: no audio requests -/

/-- The polled channel of a state. -/
def polledChannel (s : LoopState) : ℕ := s.active_sensors.getD s.current_sensor_idx 0

lemma pollTick_some_sensor_states (s : LoopState) (t d : ℚ) (b : Bool) :
    (pollTick s t (some d) b).1.sensor_states =
      if is_triggered_of d ≠ (s.sensor_states (polledChannel s)).getD false
      then mapSet s.sensor_states (polledChannel s) (is_triggered_of d)
      else s.sensor_states := by
  simp only [pollTick, polledChannel]
  by_cases h : is_triggered_of d ≠ (s.sensor_states (s.active_sensors.getD s.current_sensor_idx 0)).getD false
  · rw [if_pos h, if_pos h]
    rcases STAIR_MAPPING (s.active_sensors.getD s.current_sensor_idx 0) with _ | st <;>
      cases b <;> simp
  · rw [if_neg h, if_neg h]

/-- C6: on a valid reading `d` for the polled channel, the stored
per-channel triggered state becomes `true` iff `d < TRIGGER_DISTANCE`
(strict); a reading exactly at the threshold stores `Clear` (`false`). -/
theorem trigger_state_strict (s : LoopState) (t d : ℚ) (strip_present : Bool)
    (ch : ℕ) (was : Bool)
    (hch : polledChannel s = ch)
    (hstate : s.sensor_states ch = some was) :
    (pollTick s t (some d) strip_present).1.sensor_states ch =
        some (is_triggered_of d) ∧
      (is_triggered_of d = true ↔ d < TRIGGER_DISTANCE) ∧
      (d = TRIGGER_DISTANCE →
        (pollTick s t (some d) strip_present).1.sensor_states ch = some false) := by
  have hmain : (pollTick s t (some d) strip_present).1.sensor_states ch =
      some (is_triggered_of d) := by
    rw [pollTick_some_sensor_states, hch]
    by_cases h : is_triggered_of d ≠ (s.sensor_states ch).getD false
    · rw [if_pos h]
      simp [mapSet]
    · rw [if_neg h]
      push_neg at h
      rw [hstate] at h ⊢
      simp at h
      rw [h]
  refine ⟨hmain, ?_, ?_⟩
  · simp [is_triggered_of]
  · intro hd
    rw [hmain, hd]
    simp [is_triggered_of]

/-- Witness for `trigger_state_strict`: a single-sensor state on channel 0
whose trigger state is `False`, read at exactly the threshold distance,
stays `Clear`. -/
theorem trigger_state_strict_witness :
    (pollTick (discoveryTick (initialState 0) 5 (fun c => c = 0)) 6
          (some TRIGGER_DISTANCE) true).1.sensor_states 0 =
        some (is_triggered_of TRIGGER_DISTANCE) ∧
      (is_triggered_of TRIGGER_DISTANCE = true ↔ TRIGGER_DISTANCE < TRIGGER_DISTANCE) ∧
      (TRIGGER_DISTANCE = TRIGGER_DISTANCE →
        (pollTick (discoveryTick (initialState 0) 5 (fun c => c = 0)) 6
            (some TRIGGER_DISTANCE) true).1.sensor_states 0 = some false) :=
  trigger_state_strict _ 6 TRIGGER_DISTANCE true 0 false
    (by simp [polledChannel, discoveryTick, initialState]; decide)
    (by simp [discoveryTick, initialState]; decide)

lemma pollTick_actions_cases (s : LoopState) (t : ℚ) (r : Option ℚ) (b : Bool) :
    (pollTick s t r b).2 = [] ∨
      (∃ st, (pollTick s t r b).2 = [LoopAction.fadeIn st]) ∨
      (∃ st, (pollTick s t r b).2 = [LoopAction.fadeOut st]) := by
  match r with
  | none => left; simp [pollTick]
  | some d =>
    simp only [pollTick]
    by_cases h : is_triggered_of d ≠
        (s.sensor_states (s.active_sensors.getD s.current_sensor_idx 0)).getD false
    · rw [if_pos h]
      rcases STAIR_MAPPING (s.active_sensors.getD s.current_sensor_idx 0) with _ | st <;>
        cases b <;> cases hd : is_triggered_of d <;> simp [hd]
    · rw [if_neg h]
      left; rfl

/-- C2 (code side): a polling tick never requests an audio play — every
effect the loop body emits is an LED fade; the `play` action the spec's
audio-dispatch rule calls for is never issued, and `SOUND_COOLDOWN` is
never consulted. -/
theorem pollTick_never_plays (s : LoopState) (t : ℚ) (r : Option ℚ) (b : Bool)
    (a : LoopAction) (ha : a ∈ (pollTick s t r b).2) : a.isPlay = false := by
  rcases pollTick_actions_cases s t r b with h | ⟨st, h⟩ | ⟨st, h⟩ <;> rw [h] at ha
  · simp at ha
  · simp at ha; rw [ha]; rfl
  · simp at ha; rw [ha]; rfl

/-- A single-sensor loop state: channel 0 active (trigger state `False`),
as left by a discovery pass that found only channel 0. -/
def singleSensorState : LoopState :=
  { active_sensors := [0]
    current_sensor_idx := 0
    sensor_states := mapSet (fun _ => none) 0 false
    current_distances := fun _ => none
    last_update := 0
    last_sensor_init := 0 }

lemma singleSensor_crossing_actions :
    (pollTick singleSensorState 6 (some 500) true).2 = [LoopAction.fadeIn 9] := by
  have htrig : is_triggered_of 500 = true := by
    simp [is_triggered_of, TRIGGER_DISTANCE]
    norm_num
  simp only [pollTick, singleSensorState, mapSet]
  norm_num [htrig, STAIR_MAPPING]

/-- Witness for `pollTick_never_plays`: a Clear→Triggered crossing on
channel 0 (stair 9) — reading 500 mm against the 609.6 mm threshold —
emits only the LED fade-in, no audio play request. -/
theorem pollTick_never_plays_witness : (LoopAction.fadeIn 9).isPlay = false :=
  pollTick_never_plays singleSensorState 6 (some 500) true (LoopAction.fadeIn 9)
    (by rw [singleSensor_crossing_actions]; exact List.mem_singleton.mpr rfl)

/-! ## C5: a single threshold crossing records exactly one rising edge -/

/-- Iterate the polling tick over a sequence of valid readings (the
single active channel is polled every tick), collecting every requested
effect in order. -/
def runReadings (t : ℚ) (strip_present : Bool) :
    LoopState → List ℚ → LoopState × List LoopAction
  | s, [] => (s, [])
  | s, d :: ds =>
    let r := pollTick s t (some d) strip_present
    let rest := runReadings t strip_present r.1 ds
    (rest.1, r.2 ++ rest.2)

/-- The loop state has exactly channel 0 active, at round-robin position
0, with stored trigger state `b` — the situation after a discovery pass
that found only channel 0 (whose stair is 9), `b` ticks later. -/
def SingleOn (b : Bool) (s : LoopState) : Prop :=
  s.active_sensors = [0] ∧ s.current_sensor_idx = 0 ∧ s.sensor_states 0 = some b

lemma pollTick_single_no_change {b : Bool} {s : LoopState} (hs : SingleOn b s)
    (t : ℚ) {d : ℚ} (hd : is_triggered_of d = b) :
    SingleOn b (pollTick s t (some d) true).1 ∧ (pollTick s t (some d) true).2 = [] := by
  obtain ⟨ha, hi, hst⟩ := hs
  have hch : s.active_sensors.getD s.current_sensor_idx 0 = 0 := by
    rw [ha, hi]; rfl
  refine ⟨⟨?_, ?_, ?_⟩, ?_⟩ <;>
    simp [pollTick, hch, hst, hd, ha, hi]

lemma pollTick_single_edge {s : LoopState} (hs : SingleOn false s)
    (t : ℚ) {d : ℚ} (hd : is_triggered_of d = true) :
    SingleOn true (pollTick s t (some d) true).1 ∧
      (pollTick s t (some d) true).2 = [LoopAction.fadeIn 9] := by
  obtain ⟨ha, hi, hst⟩ := hs
  have hch : s.active_sensors.getD s.current_sensor_idx 0 = 0 := by
    rw [ha, hi]; rfl
  have hmap : STAIR_MAPPING 0 = some 9 := rfl
  refine ⟨⟨?_, ?_, ?_⟩, ?_⟩ <;>
    simp [pollTick, hch, hst, hd, ha, hi, hmap, mapSet]

lemma runReadings_no_change {b : Bool} (t : ℚ) (ds : List ℚ) :
    ∀ s : LoopState, SingleOn b s → (∀ d ∈ ds, is_triggered_of d = b) →
      SingleOn b (runReadings t true s ds).1 ∧ (runReadings t true s ds).2 = [] := by
  induction ds with
  | nil => intro s hs _; exact ⟨hs, rfl⟩
  | cons d ds ih =>
    intro s hs hall
    obtain ⟨hs', hacts⟩ := pollTick_single_no_change hs t (hall d (by simp))
    obtain ⟨hs'', hacts'⟩ := ih _ hs' (fun x hx => hall x (by simp [hx]))
    exact ⟨hs'', by simp only [runReadings, hacts, hacts', List.nil_append]⟩

lemma runReadings_append (t : ℚ) (b : Bool) (l₁ l₂ : List ℚ) :
    ∀ s : LoopState,
      (runReadings t b s (l₁ ++ l₂)).2 =
        (runReadings t b s l₁).2 ++ (runReadings t b (runReadings t b s l₁).1 l₂).2 ∧
      (runReadings t b s (l₁ ++ l₂)).1 = (runReadings t b (runReadings t b s l₁).1 l₂).1 := by
  induction l₁ with
  | nil => intro s; simp [runReadings]
  | cons d l₁ ih =>
    intro s
    obtain ⟨h2, h1⟩ := ih (pollTick s t (some d) b).1
    constructor
    · simp only [List.cons_append, runReadings, List.append_eq]
      rw [h2, List.append_assoc]
    · simp only [List.cons_append, runReadings, List.append_eq]
      exact h1

/-- C5: starting from the post-discovery state (trigger state `Clear`) on
a single channel (channel 0, stair 9), a sequence of valid readings that
stays at-or-above the threshold and then drops and stays strictly below
it — i.e. crosses the trigger threshold exactly once — makes the loop's
edge-triggered effect branch execute exactly once: the collected effects
are exactly one `fadeIn`, however long the below-threshold suffix is. -/
theorem single_crossing_one_edge (t : ℚ) (s : LoopState) (xs ys : List ℚ)
    (hs : SingleOn false s)
    (hxs : ∀ x ∈ xs, TRIGGER_DISTANCE ≤ x)
    (hys : ∀ y ∈ ys, y < TRIGGER_DISTANCE)
    (hne : ys ≠ []) :
    (runReadings t true s (xs ++ ys)).2 = [LoopAction.fadeIn 9] := by
  obtain ⟨hsx, hex⟩ := runReadings_no_change t xs s hs
    (fun x hx => by simp [is_triggered_of, not_lt.mpr (hxs x hx)])
  obtain ⟨hap2, -⟩ := runReadings_append t true xs ys s
  rw [hap2, hex, List.nil_append]
  match ys, hne with
  | y :: ys', _ =>
    have hy : y < TRIGGER_DISTANCE := hys y (List.mem_cons_self y ys')
    have htr : is_triggered_of y = true := by
      simp only [is_triggered_of, decide_eq_true_eq]; exact hy
    obtain ⟨hsy, hey⟩ := pollTick_single_edge hsx t htr
    obtain ⟨-, hey'⟩ := runReadings_no_change t ys' _ hsy
      (fun z hz => by
        simp only [is_triggered_of, decide_eq_true_eq]
        exact hys z (List.mem_cons_of_mem y hz))
    simp only [runReadings, hey, hey', List.append_nil]

/-- Witness for `single_crossing_one_edge`: readings 700 mm then 500 mm on
channel 0 (threshold 609.6 mm) produce exactly the one fade-in effect. -/
theorem single_crossing_one_edge_witness :
    (runReadings 0 true singleSensorState ([700] ++ [500])).2 = [LoopAction.fadeIn 9] :=
  single_crossing_one_edge 0 singleSensorState [700] [500]
    ⟨rfl, rfl, by simp [singleSensorState, mapSet]⟩
    (by intro x hx; simp at hx; rw [hx]; norm_num [TRIGGER_DISTANCE])
    (by intro y hy; simp at hy; rw [hy]; norm_num [TRIGGER_DISTANCE])
    (by simp)

/-! ## C4: eviction on a `None` reading -/

lemma pollTick_active_subset (s : LoopState) (t : ℚ) (r : Option ℚ) (b : Bool) :
    (pollTick s t r b).1.active_sensors ⊆ s.active_sensors := by
  match r with
  | some d => simp only [pollTick]; exact fun x hx => hx
  | none => simp only [pollTick]; exact fun x hx => List.erase_subset _ _ hx

/-- C4: on a `None` reading the polled channel is evicted on that same
tick: it leaves the active list, its trigger-state and distance entries
are deleted, the list shrinks by one and the round-robin index is wrapped
modulo the new size when the list stays non-empty (second conjunct);
thereafter polling ticks never re-add a channel (third conjunct), and the
only step that can (re-)add a channel is a discovery pass, which fires
only from an empty active list with the retry interval elapsed (fourth
conjunct). -/
theorem eviction_on_none_reading :
    (∀ (s : LoopState) (t : ℚ) (b : Bool) (ch : ℕ),
        s.active_sensors.Nodup →
        s.current_sensor_idx < s.active_sensors.length →
        polledChannel s = ch →
        ch ∉ (pollTick s t none b).1.active_sensors ∧
          (pollTick s t none b).1.sensor_states ch = none ∧
          (pollTick s t none b).1.current_distances ch = none ∧
          (pollTick s t none b).1.active_sensors.length = s.active_sensors.length - 1 ∧
          (0 < (pollTick s t none b).1.active_sensors.length →
            (pollTick s t none b).1.current_sensor_idx =
              s.current_sensor_idx % (pollTick s t none b).1.active_sensors.length)) ∧
      (∀ (s : LoopState) (t : ℚ) (r : Option ℚ) (b : Bool) (ch : ℕ),
        ch ∉ s.active_sensors → ch ∉ (pollTick s t r b).1.active_sensors) ∧
      (∀ (s s' : LoopState) (ch : ℕ), LoopStep s s' →
        ch ∉ s.active_sensors → ch ∈ s'.active_sensors →
        s.active_sensors = [] ∧
          ∃ (t : ℚ) (init_ok : ℕ → Bool),
            sensor_retry_interval ≤ t - s.last_sensor_init ∧
              s' = discoveryTick s t init_ok) := by
  refine ⟨?_, ?_, ?_⟩
  · intro s t b ch hnodup hidx hch
    subst hch
    have hmem : polledChannel s ∈ s.active_sensors := polled_channel_mem hidx
    simp only [polledChannel] at hmem
    refine ⟨?_, ?_, ?_, ?_, ?_⟩
    · simp only [pollTick, polledChannel]
      exact hnodup.not_mem_erase
    · simp only [pollTick, polledChannel, mapPop, if_pos]
    · simp only [pollTick, polledChannel, mapPop, if_pos]
    · simp only [pollTick, polledChannel]
      have := List.length_erase_add_one hmem
      omega
    · intro hpos
      simp only [pollTick, polledChannel] at hpos ⊢
      rw [if_pos hpos]
  · intro s t r b ch hnm hcontra
    exact hnm (pollTick_active_subset s t r b hcontra)
  · intro s s' ch hstep hnm hmem
    cases hstep with
    | discover t init_ok hempty helapsed =>
      exact ⟨List.length_eq_zero.mp hempty, t, init_ok, helapsed, rfl⟩
    | poll t reading strip_present hne helapsed =>
      exact absurd (pollTick_active_subset _ t reading strip_present hmem) hnm
    | idle => exact absurd hmem hnm

/-- Witness for `eviction_on_none_reading`: evicting channel 0 from the
single-sensor state empties the active list and deletes both tracking
entries; and a discovery pass from loop entry (which may add channels)
indeed starts from an empty list with the retry interval elapsed. -/
theorem eviction_on_none_reading_witness :
    (0 ∉ (pollTick singleSensorState 6 none true).1.active_sensors ∧
        (pollTick singleSensorState 6 none true).1.sensor_states 0 = none ∧
        (pollTick singleSensorState 6 none true).1.current_distances 0 = none ∧
        (pollTick singleSensorState 6 none true).1.active_sensors.length =
          singleSensorState.active_sensors.length - 1 ∧
        (0 < (pollTick singleSensorState 6 none true).1.active_sensors.length →
          (pollTick singleSensorState 6 none true).1.current_sensor_idx =
            singleSensorState.current_sensor_idx %
              (pollTick singleSensorState 6 none true).1.active_sensors.length)) ∧
      (initialState 0).active_sensors = [] ∧
        ∃ (t : ℚ) (init_ok : ℕ → Bool),
          sensor_retry_interval ≤ t - (initialState 0).last_sensor_init ∧
            discoveryTick (initialState 0) 5 (fun _ => true) =
              discoveryTick (initialState 0) t init_ok := by
  constructor
  · exact eviction_on_none_reading.1 singleSensorState 6 true 0
      (by simp [singleSensorState]) (by simp [singleSensorState]) rfl
  · exact eviction_on_none_reading.2.2 (initialState 0)
      (discoveryTick (initialState 0) 5 (fun _ => true)) 0
      (LoopStep.discover (initialState 0) 5 (fun _ => true) (by simp [initialState])
        (by norm_num [sensor_retry_interval, initialState]))
      (by simp [initialState])
      (by decide)

/-! ## The TCA9548A channel arbiter (`vl53l0x_multiplexer.py`)

`self.tcas` is the list of `(address, tca)` pairs built at construction;
we keep `(address, workingFlag)` where `workingFlag` is `tca is not None`.
The bus is modelled by the mask most recently written to the chip at each
I2C address (`i2c.writeto(addr, bytes([mask]))`). -/

/-- The arbiter state: the `(address, working?)` list and, for each bus
address, the channel mask last written to the chip there. -/
structure MuxSystem : Type where
  tcas : List (ℕ × Bool)
  chanMask : ℕ → ℕ

/-- `self.i2c.writeto(addr, bytes([b]))`: the chip at `addr` now holds
mask `b`. -/
def writeto (s : MuxSystem) (addr b : ℕ) : MuxSystem :=
  { s with chanMask := fun a => if a = addr then b else s.chanMask a }

/-- `_disable_all_channels` (lines 76-82): write a zero mask to every
working multiplexer address. -/
def disable_all_channels (s : MuxSystem) : MuxSystem :=
  s.tcas.foldl (fun acc p => if p.2 then writeto acc p.1 0 else acc) s

/-- `_get_multiplexer_and_channel` (lines 63-74): `divmod(global, 8)` for
valid channels, `None` otherwise. -/
def get_multiplexer_and_channel (numTcas globalChannel : ℕ) : Option (ℕ × ℕ) :=
  if globalChannel < 8 * numTcas then some (globalChannel / 8, globalChannel % 8)
  else none

/-- `_select_channel` (lines 84-106): resolve the target multiplexer,
fail if invalid or not working; otherwise disable every working chip,
then write the single-bit mask `1 << localChannel` to the target chip's
address.  Returns the Python function's boolean together with the
resulting bus state. -/
def select_channel (s : MuxSystem) (globalChannel : ℕ) : Bool × MuxSystem :=
  match get_multiplexer_and_channel s.tcas.length globalChannel with
  | none => (false, s)
  | some (mux_idx, local_channel) =>
    match s.tcas.get? mux_idx with
    | none => (false, s)
    | some (addr, working) =>
      if working then
        let s1 := disable_all_channels s
        (true, writeto s1 addr (2 ^ local_channel))
      else (false, s)

/-- Number of set bits of a mask (each set bit is one enabled channel). -/
def popCount (n : ℕ) : ℕ :=
  if h : n = 0 then 0 else n % 2 + popCount (n / 2)
termination_by n
decreasing_by exact Nat.div_lt_self (Nat.pos_of_ne_zero h) one_lt_two

/-- Total number of enabled channels across the union of all (working)
multiplexer chip states. -/
def totalEnabled (s : MuxSystem) : ℕ :=
  (s.tcas.map (fun p => if p.2 then popCount (s.chanMask p.1) else 0)).sum

lemma popCount_zero : popCount 0 = 0 := by rw [popCount]; simp

lemma popCount_two_pow (c : ℕ) : popCount (2 ^ c) = 1 := by
  induction c with
  | zero => rw [popCount]; norm_num; rw [popCount_zero]
  | succ c ih =>
    rw [popCount]
    have h2 : 2 ^ (c + 1) ≠ 0 := by positivity
    rw [dif_neg h2]
    have hmod : 2 ^ (c + 1) % 2 = 0 := by
      rw [pow_succ]
      exact Nat.mul_mod_left _ 2
    have hdiv : 2 ^ (c + 1) / 2 = 2 ^ c := by
      rw [pow_succ]
      exact Nat.mul_div_cancel _ (by norm_num)
    rw [hmod, hdiv, ih]

lemma writeto_tcas (s : MuxSystem) (addr b : ℕ) : (writeto s addr b).tcas = s.tcas := rfl

lemma writeto_chanMask (s : MuxSystem) (addr b a : ℕ) :
    (writeto s addr b).chanMask a = if a = addr then b else s.chanMask a := rfl

lemma disable_fold_tcas (l : List (ℕ × Bool)) :
    ∀ s : MuxSystem,
      (l.foldl (fun acc p => if p.2 then writeto acc p.1 0 else acc) s).tcas = s.tcas := by
  induction l with
  | nil => intro s; rfl
  | cons q rest ih =>
    intro s
    rw [List.foldl_cons]
    cases hq : q.2 <;>
      simp only [hq, ite_true, ite_false, Bool.false_eq_true, ih, writeto_tcas]

lemma disable_fold_chanMask (l : List (ℕ × Bool)) :
    ∀ (s : MuxSystem) (a : ℕ),
      (l.foldl (fun acc p => if p.2 then writeto acc p.1 0 else acc) s).chanMask a =
        if l.any (fun p => p.2 && p.1 == a) then 0 else s.chanMask a := by
  induction l with
  | nil => intro s a; simp
  | cons q rest ih =>
    intro s a
    rw [List.foldl_cons, List.any_cons]
    cases hq : q.2 with
    | false =>
      simp only [hq, Bool.false_and, Bool.false_or, Bool.false_eq_true, ite_false]
      exact ih s a
    | true =>
      simp only [hq, Bool.true_and, ite_true]
      rw [ih (writeto s q.1 0) a]
      by_cases hra : rest.any (fun p => p.2 && p.1 == a)
      · simp [hra]
      · by_cases haq : q.1 = a
        · simp [hra, haq, writeto]
        · simp only [hra, Bool.or_false, ite_false, writeto]
          have : ¬(q.1 == a) := by simpa using haq
          simp only [this, Bool.false_eq_true, ite_false]
          rw [if_neg (fun h => haq h.symm)]

lemma disable_all_chanMask (s : MuxSystem) (a : ℕ) :
    (disable_all_channels s).chanMask a =
      if s.tcas.any (fun p => p.2 && p.1 == a) then 0 else s.chanMask a :=
  disable_fold_chanMask s.tcas s a

lemma sum_single_working (l : List (ℕ × Bool)) :
    ∀ (m A : ℕ), (l.map Prod.fst).Nodup → l.get? m = some (A, true) →
      (l.map (fun p => if p.2 then (if p.1 = A then 1 else 0) else 0)).sum = 1 := by
  induction l with
  | nil => intro m A _ hget; simp at hget
  | cons q rest ih =>
    intro m A hnodup hget
    rw [List.map_cons, List.nodup_cons] at hnodup
    match m with
    | 0 =>
      rw [List.get?_cons_zero, Option.some_inj] at hget
      subst hget
      rw [List.map_cons, List.sum_cons]
      have hA : A ∉ rest.map Prod.fst := by simpa using hnodup.1
      have hrest : (rest.map (fun p => if p.2 then (if p.1 = A then 1 else 0) else 0)).sum = 0 := by
        apply List.sum_eq_zero
        intro x hx
        rw [List.mem_map] at hx
        obtain ⟨p, hp, rfl⟩ := hx
        have hpm : p.1 ∈ rest.map Prod.fst := List.mem_map_of_mem Prod.fst hp
        have hne : p.1 ≠ A := fun hc => hA (hc ▸ hpm)
        simp [hne]
      simp [hrest]
    | m' + 1 =>
      rw [List.get?_cons_succ] at hget
      have hA_mem : A ∈ rest.map Prod.fst := by
        have := List.get?_mem hget
        exact List.mem_map_of_mem Prod.fst this
      have hqA : q.1 ≠ A := fun hcontra => hnodup.1 (hcontra ▸ hA_mem)
      rw [List.map_cons, List.sum_cons, ih m' A hnodup.2 hget]
      simp [hqA]

lemma disable_all_totalEnabled (s : MuxSystem) :
    totalEnabled (disable_all_channels s) = 0 := by
  unfold totalEnabled
  rw [show (disable_all_channels s).tcas = s.tcas from disable_fold_tcas s.tcas s]
  apply List.sum_eq_zero
  intro x hx
  rw [List.mem_map] at hx
  obtain ⟨p, hp, rfl⟩ := hx
  cases hw : p.2 with
  | false => simp [hw]
  | true =>
    simp only [hw, ite_true]
    rw [show disable_all_channels s = disable_all_channels s from rfl,
      disable_all_chanMask, if_pos, popCount_zero]
    rw [List.any_eq_true]
    exact ⟨p, hp, by simp [hw]⟩

/-- C1: (i) whenever `_select_channel(globalChannel)` succeeds (returns
`True`), the resulting bus state has exactly one enabled-channel bit set
across the union of all working multiplexer chips — zero masks
everywhere, except the single-bit mask `1 << localChannel` written only
to the target multiplexer's address (this requires the configured chip
addresses to be distinct, as the default `[0x70, 0x77]` configuration
is); (ii) a failing `_select_channel` (invalid channel, or target
multiplexer not working) does not touch the bus at all; (iii) after
`_disable_all_channels` — run at construction and at the start of every
selection — zero channels are enabled.  Together these give: at most one
channel is enabled on the shared bus at any instant, across all chips. -/
theorem select_channel_exclusive :
    (∀ (s : MuxSystem) (g : ℕ) (s' : MuxSystem),
        (s.tcas.map Prod.fst).Nodup →
        select_channel s g = (true, s') → totalEnabled s' = 1) ∧
      (∀ (s : MuxSystem) (g : ℕ) (s' : MuxSystem),
        select_channel s g = (false, s') → s' = s) ∧
      (∀ s : MuxSystem, totalEnabled (disable_all_channels s) = 0) := by
  refine ⟨?_, ?_, disable_all_totalEnabled⟩
  case refine_2 =>
    intro s g s' hsel
    unfold select_channel at hsel
    split at hsel
    · exact ((Prod.mk.injEq _ _ _ _).mp hsel).2.symm
    next m c hmc =>
      split at hsel
      · exact ((Prod.mk.injEq _ _ _ _).mp hsel).2.symm
      next A w hget =>
        split at hsel
        case isTrue hw => simp at hsel
        case isFalse => exact ((Prod.mk.injEq _ _ _ _).mp hsel).2.symm
  intro s g s' hnodup hsel
  unfold select_channel at hsel
  split at hsel
  · simp at hsel
  next m c hmc =>
    split at hsel
    · simp at hsel
    next A w hget =>
      split at hsel
      case isFalse => simp at hsel
      case isTrue hw =>
        subst hw
        rw [Prod.mk.injEq] at hsel
        obtain ⟨-, rfl⟩ := hsel
        have htcas : (writeto (disable_all_channels s) A (2 ^ c)).tcas = s.tcas := by
          rw [writeto_tcas]
          exact disable_fold_tcas s.tcas s
        unfold totalEnabled
        rw [htcas]
        have hmapeq : s.tcas.map
            (fun p => if p.2 then
              popCount ((writeto (disable_all_channels s) A (2 ^ c)).chanMask p.1) else 0) =
            s.tcas.map (fun p => if p.2 then (if p.1 = A then 1 else 0) else 0) := by
          apply List.map_congr_left
          intro p hp
          cases hw : p.2 with
          | false => simp [hw]
          | true =>
            simp only [hw, ite_true]
            by_cases hpA : p.1 = A
            · rw [writeto_chanMask, if_pos hpA, if_pos hpA, popCount_two_pow]
            · rw [writeto_chanMask, if_neg hpA, if_neg hpA,
                disable_all_chanMask]
              rw [if_pos, popCount_zero]
              rw [List.any_eq_true]
              exact ⟨p, hp, by simp [hw]⟩
        rw [hmapeq]
        exact sum_single_working s.tcas m A hnodup hget

/-- The default two-chip configuration (addresses 0x70 and 0x77, both
working), with every chip mask initially fully enabled (0xFF). -/
def muxDefault : MuxSystem :=
  { tcas := [(112, true), (119, true)], chanMask := fun _ => 255 }

/-- Witness for `select_channel_exclusive`: selecting global channel 9
(chip index 1, local channel 1) on the default configuration leaves
exactly one enabled channel bit system-wide. -/
theorem select_channel_exclusive_witness :
    totalEnabled (writeto (disable_all_channels muxDefault) 119 (2 ^ 1)) = 1 :=
  select_channel_exclusive.1 muxDefault 9 _ (by decide) rfl

/-! ## Bluetooth audio (`bluetooth_audio.py`)

`BluetoothAudio` keeps the configured sound file and the connection flag.
The outcomes of the external `bluetoothctl`/`paplay` subprocesses are
supplied as oracle booleans: `conn₁`/`conn₂` are the results of the
(up to two) `connect_bluetooth()` calls a single `play_sound()` call can
make, and `play₁`/`play₂` are `returncode == 0` of the (up to two)
`paplay` invocations. -/

/-- The mutable state of a `BluetoothAudio` instance. -/
structure BluetoothAudio : Type where
  sound_file : Option String
  connected : Bool

/-- `connect_bluetooth` (lines 24-88): every success path sets
`self.connected = True` and returns `True`; every failure path returns
`False` leaving `self.connected` untouched.  `ok` is whether any of the
attempts inside succeeds. -/
def connect_bluetooth (s : BluetoothAudio) (ok : Bool) : Bool × BluetoothAudio :=
  if ok then (true, { s with connected := true }) else (false, s)

/-- `play_sound` (lines 90-130).  Returns the Python result together with
the final state and the number of `paplay` invocations made. -/
def play_sound (s : BluetoothAudio) (conn₁ conn₂ play₁ play₂ : Bool) :
    Bool × BluetoothAudio × ℕ :=
  match s.sound_file with
  | none => (false, s, 0)               -- "No sound file configured"
  | some _ =>
    -- lines 96-101: reconnect if not connected; on failure return False
    -- without attempting playback
    let attempt :=
      if s.connected then some s
      else
        let c := connect_bluetooth s conn₁
        if c.1 then some c.2 else none
    match attempt with
    | none => (false, s, 0)             -- "Failed to reconnect Bluetooth"
    | some s₁ =>
      -- line 105: first paplay invocation
      if play₁ then (true, s₁, 1)
      else
        -- lines 110-118: one reconnect; retry only if it succeeded
        let c₂ := connect_bluetooth s₁ conn₂
        if c₂.1 then
          if play₂ then (true, c₂.2, 2)
          else (false, { c₂.2 with connected := false }, 2)
        else
          (false, { c₂.2 with connected := false }, 1)

/-- C8: `play_sound` follows the specified failure chain (for a
configured sound file): (i) not connected and the initial reconnect
fails → failure, zero playback attempts; (ii) at most two playback
attempts ever — i.e. playback is retried at most once per call; (iii) a
second attempt happens only when the first reported failure and the
intervening reconnect succeeded; (iv) if the first attempt fails and the
reconnect-plus-retry cycle also fails (reconnect fails, or the retry
fails), the call returns failure with `connected = False`. -/
theorem play_sound_failure_chain (s : BluetoothAudio) (conn₁ conn₂ play₁ play₂ : Bool)
    (f : String) (hfile : s.sound_file = some f) :
    ((s.connected = false ∧ conn₁ = false) →
        play_sound s conn₁ conn₂ play₁ play₂ = (false, s, 0)) ∧
      (play_sound s conn₁ conn₂ play₁ play₂).2.2 ≤ 2 ∧
      ((play_sound s conn₁ conn₂ play₁ play₂).2.2 = 2 →
        play₁ = false ∧ conn₂ = true) ∧
      ((s.connected = true ∨ conn₁ = true) → play₁ = false →
        (conn₂ = false ∨ play₂ = false) →
        (play_sound s conn₁ conn₂ play₁ play₂).1 = false ∧
          (play_sound s conn₁ conn₂ play₁ play₂).2.1.connected = false) := by
  cases hc : s.connected <;>
    cases conn₁ <;> cases conn₂ <;> cases play₁ <;> cases play₂ <;>
      simp [play_sound, connect_bluetooth, hfile, hc]

/-- Witness for `play_sound_failure_chain`: a disconnected instance with a
configured file whose reconnect fails returns failure without any
playback attempt. -/
theorem play_sound_failure_chain_witness :
    play_sound ⟨some "harp01.wav", false⟩ false true true true =
      (false, ⟨some "harp01.wav", false⟩, 0) :=
  (play_sound_failure_chain ⟨some "harp01.wav", false⟩ false true true true
      "harp01.wav" rfl).1 ⟨rfl, rfl⟩

/-! ## `fade_stair_leds` (`main.py` lines 328-364) -/

/-- `STAIR_LED_COUNTS` (`main.py` lines 53-68). -/
def STAIR_LED_COUNTS : ℕ → Option ℕ
  | 1 => some 114
  | 2 => some 114
  | 3 => some 114
  | 4 => some 114
  | 5 => some 114
  | 6 => some 112
  | 7 => some 112
  | 8 => some 114
  | 9 => some 112
  | 10 => some 114
  | 11 => some 114
  | 12 => some 114
  | 13 => some 114
  | 14 => some 114
  | _ => none

/-- `Color(r, g, b)` from `rpi_ws281x`: the packed 24-bit integer
`(r << 16) | (g << 8) | b`. -/
def Color (r g b : ℤ) : ℤ := r * 65536 + g * 256 + b

/-- The LED strip's pixel buffer, as accessed through
`getPixelColor` / `setPixelColor` (`show()` flushes and does not change
pixel data). -/
structure Strip : Type where
  pixels : ℕ → ℤ

/-- `strip.setPixelColor(i, c)`. -/
def setPixelColor (st : Strip) (i : ℕ) (c : ℤ) : Strip :=
  { pixels := fun j => if j = i then c else st.pixels j }

/-- `start_led = sum(STAIR_LED_COUNTS[i] for i in range(1, stair_num))`
(`main.py` line 342).  For every `stair_num` in the table, each of the
smaller stair numbers is also in the table, so the `getD 0` default never
fires on the guarded path. -/
def start_led_of (stair_num : ℕ) : ℕ :=
  ((List.range' 1 (stair_num - 1)).map (fun i => (STAIR_LED_COUNTS i).getD 0)).sum

/-- `fade_stair_leds` (`main.py` 328-364): return unchanged if the strip
is absent or the stair is not in the table; otherwise read the first LED's
color, compute `current_brightness` from the shifted byte components,
then over `fade_steps` steps repaint every LED in
`[start_led, end_led = start_led + led_count - 1]` with the interpolated
purple `Color(brightness, 0, brightness)` where
`brightness = int(current_brightness + step_size*(step+1))`.
The byte extractions use `/`, `%` as the Python shifts/masks do on the
nonnegative packed colors the library produces; `fade_delay` only sleeps
and does not affect the pixel data. -/
def fade_stair_leds (strip : Option Strip) (stair_num : ℕ) (target_brightness : ℤ)
    (fade_steps : ℕ) : Option Strip :=
  match strip, STAIR_LED_COUNTS stair_num with
  | none, _ => none
  | some st, none => some st
  | some st, some led_count =>
    let start_led := start_led_of stair_num
    let end_led : ℤ := (start_led : ℤ) + led_count - 1
    let current_color := st.pixels start_led
    let current_brightness : ℤ :=
      max (max ((current_color / 65536) % 256) ((current_color / 256) % 256))
        (current_color % 256)
    let step_size : ℚ :=
      ((target_brightness : ℚ) - (current_brightness : ℚ)) / (fade_steps : ℚ)
    some ((List.range fade_steps).foldl
      (fun acc (step : ℕ) =>
        let brightness : ℤ :=
          pyInt ((current_brightness : ℚ) + step_size * ((step : ℚ) + 1))
        let color := Color brightness 0 brightness
        (List.range' start_led (end_led + 1 - start_led).toNat).foldl
          (fun a i => setPixelColor a i color) acc)
      st)

lemma foldl_setPixelColor_outside (l : List ℕ) (c : ℤ) (i : ℕ) (hi : i ∉ l) :
    ∀ st : Strip, (l.foldl (fun a j => setPixelColor a j c) st).pixels i = st.pixels i := by
  induction l with
  | nil => intro st; rfl
  | cons j rest ih =>
    intro st
    rw [List.mem_cons, not_or] at hi
    rw [List.foldl_cons, ih hi.2]
    simp [setPixelColor, hi.1]

/-- The pixel buffer of an optional strip, pointwise. -/
def stripPixels (o : Option Strip) (i : ℕ) : Option ℤ :=
  o.map (fun st => st.pixels i)

lemma foldl_preserves_pixel {β : Type} (l : List β) (f : Strip → β → Strip) (i : ℕ)
    (hf : ∀ (st : Strip) (x : β), (f st x).pixels i = st.pixels i) :
    ∀ st : Strip, (l.foldl f st).pixels i = st.pixels i := by
  induction l with
  | nil => intro st; rfl
  | cons x rest ih =>
    intro st
    rw [List.foldl_cons, ih, hf]

/-- C10: `fade_stair_leds` writes only inside the target stair's LED range
`[start_led, start_led + led_count - 1]`: every pixel below `start_led` or
at-or-beyond `start_led + led_count` is unchanged; a `None` strip or a
stair number absent from `STAIR_LED_COUNTS` leaves everything untouched. -/
theorem fade_stair_leds_frame :
    (∀ (stair_num : ℕ) (target : ℤ) (steps : ℕ),
        fade_stair_leds none stair_num target steps = none) ∧
      (∀ (st : Strip) (stair_num : ℕ) (target : ℤ) (steps : ℕ),
        STAIR_LED_COUNTS stair_num = none →
        fade_stair_leds (some st) stair_num target steps = some st) ∧
      (∀ (st : Strip) (stair_num : ℕ) (target : ℤ) (steps led_count : ℕ),
        STAIR_LED_COUNTS stair_num = some led_count →
        ∀ i : ℕ, (i < start_led_of stair_num ∨ start_led_of stair_num + led_count ≤ i) →
          stripPixels (fade_stair_leds (some st) stair_num target steps) i =
            some (st.pixels i)) := by
  refine ⟨?_, ?_, ?_⟩
  · intro stair_num target steps
    rfl
  · intro st stair_num target steps h
    simp [fade_stair_leds, h]
  · intro st stair_num target steps led_count hc i hi
    simp only [fade_stair_leds, hc, stripPixels, Option.map_some', Option.some_inj]
    have hcnt : (((start_led_of stair_num : ℤ) + led_count - 1) + 1 -
        (start_led_of stair_num : ℤ)).toNat = led_count := by omega
    rw [hcnt]
    apply foldl_preserves_pixel
    intro st' step
    apply foldl_setPixelColor_outside
    rw [List.mem_range']
    rintro ⟨h₁, h₂⟩
    omega

/-- Witness for `fade_stair_leds_frame`: fading stair 1 (LEDs 0-113) on an
all-off strip leaves pixel 200 unchanged. -/
theorem fade_stair_leds_frame_witness :
    stripPixels (fade_stair_leds (some ⟨fun _ => 0⟩) 1 255 5) 200 =
      some (Strip.pixels ⟨fun _ => 0⟩ 200) :=
  fade_stair_leds_frame.2.2 ⟨fun _ => 0⟩ 1 255 5 114 rfl 200
    (Or.inr (by simp [start_led_of]))
